import Mathlib

/-!
Verification of the CHAP channel-annotation core against its specification.

The development shallowly embeds the relevant C++ translation units:

* `src/optim/simulated_annealing_module.cpp` (simulated annealing),
* `src/trajectory-analysis/trajectory-analysis.cpp` (per-frame analysis and
  the aggregation pass),
* `src/io/wavefront_obj_io.cpp` (Wavefront OBJ geometry helpers).

Modelling conventions: `real` (a float in the C++ sources) is idealised as an
exact ordered field.  Sections whose arithmetic is purely rational use `ℚ`, so
every definition is executable; the simulated-annealing acceptance test and the
mapped-coordinate records involve `std::exp` and `std::sqrt` and are therefore
stated over `ℝ` (with comparisons threaded through explicit `Decidable`
oracles, and `std::sqrt` abstracted as a function parameter instantiated with
`Real.sqrt` in the theorems).  Class member state is passed explicitly; the
pseudo-random number generator is modelled as a stream of draws.  Fallible
arithmetic (the unguarded division by a vertex count) is modelled with
`Option`.  Classes whose implementation is not among the available sources
(`SummaryStatistics`, `MolecularPath::mapSelection`, `checkIfInside`,
`LinearSplineInterp1D`) are modelled from the specification; each such
definition carries a doc comment saying so.
-/

namespace Chap

/-! ## Simulated annealing (`simulated_annealing_module.cpp`) -/

/-- Mutable member state of `SimulatedAnnealingModule` during a run:
current, candidate and best state vectors, their cost-function values, and
the current temperature. -/
structure SAState where
  crntState : List ℝ
  crntCost : ℝ
  candState : List ℝ
  candCost : ℝ
  bestState : List ℝ
  bestCost : ℝ
  temp : ℝ

namespace SimulatedAnnealingModule

/-- `generateCandidateStateIsotropic`: the candidate state is the current
state plus `stepLengthFactor` times a random draw, componentwise.  The
vector of PRNG draws is explicit (`noise`). -/
def generateCandidateStateIsotropic (stepLengthFactor : ℝ)
    (crntState noise : List ℝ) : List ℝ :=
  List.zipWith (fun c r => c + stepLengthFactor * r) crntState noise

/-- `acceptCandidateState`: the candidate is accepted when the uniform draw
`u` from `[0,1)` is strictly below
`min (exp ((candCost - crntCost) / temp)) 1`. -/
def acceptCandidateState (candCost crntCost temp u : ℝ) : Prop :=
  u < min (Real.exp ((candCost - crntCost) / temp)) 1

/-- `cool`: exponential cooling, `temp *= coolingFactor`. -/
def cool (coolingFactor temp : ℝ) : ℝ :=
  temp * coolingFactor

/-- One pass of the body of the `annealIsotropic` loop: generate a candidate,
evaluate its cost, decide acceptance, update the current (and possibly the
best) state accordingly, and cool.  Comparisons on `ℝ` are threaded through
the explicit `Decidable` oracles `decAcc` and `decLt`. -/
def annealIter (decAcc : (a b c u : ℝ) → Decidable (acceptCandidateState a b c u))
    (decLt : (a b : ℝ) → Decidable (a < b))
    (g : List ℝ → ℝ) (coolingFactor stepLengthFactor : ℝ)
    (noise : List ℝ) (u : ℝ) (s : SAState) : SAState :=
  let cand := generateCandidateStateIsotropic stepLengthFactor s.crntState noise
  let cc := g cand
  let cooled := cool coolingFactor s.temp
  @ite _ (acceptCandidateState cc s.crntCost s.temp u) (decAcc cc s.crntCost s.temp u)
    (@ite _ (s.bestCost < cc) (decLt s.bestCost cc)
      ⟨cand, cc, cand, cc, cand, cc, cooled⟩
      ⟨cand, cc, cand, cc, s.bestState, s.bestCost, cooled⟩)
    ⟨s.crntState, s.crntCost, cand, cc, s.bestState, s.bestCost, cooled⟩

/-- The `while(true)` loop of `annealIsotropic`, with the iteration counter
`n` explicit: run the body, increment the counter, and return as soon as
`n + 1 ≥ maxCoolingIter` (the test follows the body, as in the source).
`stream n` supplies the PRNG draws of iteration `n`. -/
def annealLoop (decAcc : (a b c u : ℝ) → Decidable (acceptCandidateState a b c u))
    (decLt : (a b : ℝ) → Decidable (a < b))
    (g : List ℝ → ℝ) (coolingFactor stepLengthFactor : ℝ)
    (stream : ℕ → List ℝ × ℝ) (maxCoolingIter : ℤ) (n : ℕ) (s : SAState) : SAState :=
  let s' := annealIter decAcc decLt g coolingFactor stepLengthFactor
      (stream n).1 (stream n).2 s
  if (n + 1 : ℤ) ≥ maxCoolingIter then s'
  else annealLoop decAcc decLt g coolingFactor stepLengthFactor stream
      maxCoolingIter (n + 1) s'
termination_by (maxCoolingIter - n).toNat
decreasing_by omega

/-- `annealIsotropic`: the loop started with counter zero. -/
def annealIsotropic (decAcc : (a b c u : ℝ) → Decidable (acceptCandidateState a b c u))
    (decLt : (a b : ℝ) → Decidable (a < b))
    (g : List ℝ → ℝ) (coolingFactor stepLengthFactor : ℝ)
    (stream : ℕ → List ℝ × ℝ) (maxCoolingIter : ℤ) (s : SAState) : SAState :=
  annealLoop decAcc decLt g coolingFactor stepLengthFactor stream maxCoolingIter 0 s

/-- `setInitGuess` followed by the cost initialisation in `anneal()`: all
three state vectors start at the initial guess, all three costs at its
objective value, the temperature at the configured initial temperature. -/
def setInitState (g : List ℝ → ℝ) (initTemp : ℝ) (guess : List ℝ) : SAState :=
  ⟨guess, g guess, guess, g guess, guess, g guess, initTemp⟩

/-- `anneal`: initialise the costs from the initial guess and run the
isotropic annealing loop. -/
def anneal (decAcc : (a b c u : ℝ) → Decidable (acceptCandidateState a b c u))
    (decLt : (a b : ℝ) → Decidable (a < b))
    (g : List ℝ → ℝ) (coolingFactor stepLengthFactor : ℝ)
    (stream : ℕ → List ℝ × ℝ) (maxCoolingIter : ℤ) (initTemp : ℝ)
    (guess : List ℝ) : SAState :=
  annealIsotropic decAcc decLt g coolingFactor stepLengthFactor stream
    maxCoolingIter (setInitState g initTemp guess)

/-- `getOptimPoint`: the pair of the best state and the stored best cost. -/
def getOptimPoint (s : SAState) : List ℝ × ℝ :=
  (s.bestState, s.bestCost)

/-- Reference loop shape for the iteration-count theorem: apply exactly `k`
iterations of the loop body, consuming stream entries from index `n` on.
(This is the "exactly `k` candidate-generation/cooling iterations" reading of
the specification, to be compared with `annealLoop`.) -/
def annealIterN (decAcc : (a b c u : ℝ) → Decidable (acceptCandidateState a b c u))
    (decLt : (a b : ℝ) → Decidable (a < b))
    (g : List ℝ → ℝ) (coolingFactor stepLengthFactor : ℝ)
    (stream : ℕ → List ℝ × ℝ) : ℕ → ℕ → SAState → SAState
  | 0, _, s => s
  | k + 1, n, s =>
      annealIterN decAcc decLt g coolingFactor stepLengthFactor stream k (n + 1)
        (annealIter decAcc decLt g coolingFactor stepLengthFactor
          (stream n).1 (stream n).2 s)

/-- Error kinds the specification assigns to `setParams`. -/
inductive SAConfigError where
  | missingParameter : SAConfigError
  | invalidTemperature : SAConfigError
  | invalidCoolingFactor : SAConfigError
deriving DecidableEq

/-- Member parameters of `SimulatedAnnealingModule` set by `setParams`. -/
structure SAParams where
  seed : ℝ
  maxCoolingIter : ℝ
  temp : ℝ
  coolingFactor : ℝ
  stepLengthFactor : ℝ

/-- `setParams`: read each parameter from the name-to-value map.  A missing
`saSeed` is silently ignored (the member keeps its previous value); a missing
`saMaxCoolingIter`, `saInitTemp`, `saCoolingFactor` or `saStepLengthFactor`
aborts the program, modelled as `missingParameter`.  No value validation is
performed. -/
def setParams (params : String → Option ℝ) (m : SAParams) :
    Except SAConfigError SAParams :=
  let m1 := match params "saSeed" with
    | some v => SAParams.mk v m.maxCoolingIter m.temp m.coolingFactor m.stepLengthFactor
    | none => m
  match params "saMaxCoolingIter" with
  | none => Except.error SAConfigError.missingParameter
  | some mci =>
    match params "saInitTemp" with
    | none => Except.error SAConfigError.missingParameter
    | some t =>
      match params "saCoolingFactor" with
      | none => Except.error SAConfigError.missingParameter
      | some cf =>
        match params "saStepLengthFactor" with
        | none => Except.error SAConfigError.missingParameter
        | some slf =>
          Except.ok (SAParams.mk m1.seed mci t cf slf)

end SimulatedAnnealingModule

/-! ## Pathway mapping records (`trajectory-analysis.cpp`, `analyzeFrame`) -/

/-- Modelled from the spec: `MolecularPath::mapSelection` is not among the
available sources.  Per the specification it returns, for each particle, the
curvilinear coordinates `(s, ρ, φ)` stored in an `RVec` (components `SS`,
`RR`, `PP`), where `ρ = |C(s*) − p|` is the Euclidean distance from the
particle to the centreline point at its arc-length coordinate `s*`, and
`φ ∈ [-π, π]` is the azimuth. -/
structure MappedCoord where
  s : ℝ
  rho : ℝ
  phi : ℝ

/-- Modelled from the spec: `MolecularPath::checkIfInside` is not among the
available sources.  Per the specification a mapped position is inside when
`ρ ≤ R(s) + margin`, where `R` is the pathway radius spline. -/
def checkIfInside (R : ℝ → ℝ) (margin : ℝ) (mc : MappedCoord) : Prop :=
  mc.rho ≤ R mc.s + margin

/-- A residue is pore-lining when its centre-of-geometry mapped position
passes `checkIfInside` with margin `poreMappingMargin` (`analyzeFrame`,
computation of the `poreLining` map). -/
def poreLining (R : ℝ → ℝ) (poreMappingMargin : ℝ) (cog : MappedCoord) : Prop :=
  checkIfInside R poreMappingMargin cog

/-- A residue is pore-facing when its centre of geometry lies closer to the
centreline than its C-alpha atom and it is pore-lining (`analyzeFrame`,
computation of the `poreFacing` map; the source tests
`cog[RR] < cal[RR] && poreLining`). -/
def poreFacing (R : ℝ → ℝ) (poreMappingMargin : ℝ) (cog cal : MappedCoord) : Prop :=
  cog.rho < cal.rho ∧ poreLining R poreMappingMargin cog

/-- Booleans are written to the per-frame stream as reals. -/
def boolToReal (b : Bool) : ℝ :=
  if b then 1 else 0

/-- One record of per-frame stream dataset 4 (mapped residues). -/
structure ResidueStreamRecord where
  resId : ℝ
  s : ℝ
  rho : ℝ
  phi : ℝ
  poreLiningFlag : ℝ
  poreFacingFlag : ℝ
  poreRadius : ℝ
  solventDensity : ℝ
  x : ℝ
  y : ℝ
  z : ℝ

/-- The residue record written by `analyzeFrame` for a mapped residue: the
radial coordinate is `std::sqrt` of the `RR` component of the mapped
coordinates, the azimuth is the `PP` component.  `rt` abstracts `std::sqrt`
and is instantiated with `Real.sqrt` in the theorems. -/
def residueStreamRecord (rt : ℝ → ℝ) (resId : ℝ) (mc : MappedCoord)
    (lining facing : Bool) (poreRadius solventDensity x y z : ℝ) :
    ResidueStreamRecord :=
  ⟨resId, mc.s, rt mc.rho, mc.phi, boolToReal lining, boolToReal facing,
    poreRadius, solventDensity, x, y, z⟩

/-- One record of per-frame stream dataset 5 (mapped solvent particles). -/
structure SolventStreamRecord where
  resId : ℝ
  s : ℝ
  rho : ℝ
  phi : ℝ
  insidePoreFlag : ℝ
  insideSampleFlag : ℝ
  x : ℝ
  y : ℝ
  z : ℝ

/-- The solvent record written by `analyzeFrame` for a mapped solvent
particle: the radial coordinate is the raw `RR` component (no square root is
taken) and the azimuth is hard-coded to `0.0` (source comment: JSON cannot
handle NaN). -/
def solventStreamRecord (resId : ℝ) (mc : MappedCoord)
    (insidePore insideSample : Bool) (x y z : ℝ) : SolventStreamRecord :=
  ⟨resId, mc.s, mc.rho, 0, boolToReal insidePore, boolToReal insideSample, x, y, z⟩

/-! ## Hydrophobicity sample padding (`analyzeFrame`) -/

/-- Per-residue data entering the hydrophobicity block: the arc-length
coordinate of the residue's mapped centre of geometry, its hydrophobicity,
and the two labels computed earlier in the frame. -/
structure ResidueSample where
  s : ℚ
  hydrophobicity : ℚ
  isPoreLining : Bool
  isPoreFacing : Bool

/-- `minPoreResS`: smallest mapped arc-length coordinate over all residues
(the source folds with `+inf` as the initial accumulator; the empty frame,
where the infinity would survive, is outside the rational model, hence
`Option`). -/
def minPoreResS (rs : List ResidueSample) : Option ℚ :=
  match rs.map ResidueSample.s with
  | [] => none
  | x :: xs => some (xs.foldl min x)

/-- `maxPoreResS`: largest mapped arc-length coordinate over all residues. -/
def maxPoreResS (rs : List ResidueSample) : Option ℚ :=
  match rs.map ResidueSample.s with
  | [] => none
  | x :: xs => some (xs.foldl max x)

/-- Arc-length coordinates of the pore-lining residues, in frame order. -/
def plResidueCoordS (rs : List ResidueSample) : List ℚ :=
  (rs.filter ResidueSample.isPoreLining).map ResidueSample.s

/-- Hydrophobicities of the pore-lining residues, in frame order. -/
def plResidueHydrophobicity (rs : List ResidueSample) : List ℚ :=
  (rs.filter ResidueSample.isPoreLining).map ResidueSample.hydrophobicity

/-- Arc-length coordinates of the pore-facing residues, in frame order. -/
def pfResidueCoordS (rs : List ResidueSample) : List ℚ :=
  (rs.filter ResidueSample.isPoreFacing).map ResidueSample.s

/-- Hydrophobicities of the pore-facing residues, in frame order. -/
def pfResidueHydrophobicity (rs : List ResidueSample) : List ℚ :=
  (rs.filter ResidueSample.isPoreFacing).map ResidueSample.hydrophobicity

/-- The mock sample coordinates appended before kernel smoothing: one point
half a bandwidth below the smallest residue coordinate and one half a
bandwidth above the largest (`minPoreResS - hpBandWidth/2.0` and
`maxPoreResS + hpBandWidth/2.0` in the source). -/
def paddedCoordS (hpBandWidth : ℚ) (rs : List ResidueSample) (coords : List ℚ) :
    List ℚ :=
  match minPoreResS rs, maxPoreResS rs with
  | some lo, some hi => coords ++ [lo - hpBandWidth / 2, hi + hpBandWidth / 2]
  | _, _ => coords

/-- The corresponding mock sample values: both zero. -/
def paddedHydrophobicity (rs : List ResidueSample) (values : List ℚ) : List ℚ :=
  match minPoreResS rs, maxPoreResS rs with
  | some _, some _ => values ++ [0, 0]
  | _, _ => values

/-- Input handed to the pore-lining kernel smoother: padded coordinates and
padded sample values. -/
def plSmootherInput (hpBandWidth : ℚ) (rs : List ResidueSample) : List ℚ × List ℚ :=
  (paddedCoordS hpBandWidth rs (plResidueCoordS rs),
    paddedHydrophobicity rs (plResidueHydrophobicity rs))

/-- Input handed to the pore-facing kernel smoother. -/
def pfSmootherInput (hpBandWidth : ℚ) (rs : List ResidueSample) : List ℚ × List ℚ :=
  (paddedCoordS hpBandWidth rs (pfResidueCoordS rs),
    paddedHydrophobicity rs (pfResidueHydrophobicity rs))

/-! ## Summary statistics (modelled from the spec) and the aggregation pass
(`trajectory-analysis.cpp`, `finishAnalysis`) -/

/-- Modelled from the spec: the `SummaryStatistics` class is not among the
available sources.  Per the specification it keeps running count, mean,
sum of squared deviations, minimum and maximum, updated by Welford's online
algorithm. -/
structure SummaryStatistics where
  count : ℕ
  mean : ℚ
  sumSquaredDev : ℚ
  min : ℚ
  max : ℚ
deriving DecidableEq

namespace SummaryStatistics

/-- The freshly constructed accumulator (count zero; the extremes are
overwritten by the first update). -/
def empty : SummaryStatistics :=
  ⟨0, 0, 0, 0, 0⟩

/-- Modelled from the spec: Welford single-pass update of count, mean, sum of
squared deviations, minimum and maximum. -/
def update (st : SummaryStatistics) (x : ℚ) : SummaryStatistics :=
  let n : ℕ := st.count + 1
  let delta : ℚ := x - st.mean
  let mean' : ℚ := st.mean + delta / (n : ℚ)
  let m2' : ℚ := st.sumSquaredDev + delta * (x - mean')
  ⟨n, mean', m2',
    if st.count = 0 then x else Min.min st.min x,
    if st.count = 0 then x else Max.max st.max x⟩

/-- Modelled from the spec: `shift(c)` adds a constant to mean, minimum and
maximum; count and the squared deviations are unchanged. -/
def shift (st : SummaryStatistics) (c : ℚ) : SummaryStatistics :=
  ⟨st.count, st.mean + c, st.sumSquaredDev, st.min + c, st.max + c⟩

/-- `updateMultiple`: pointwise extension of `update` to a vector of
accumulators and a vector of samples. -/
def updateMultiple (sts : List SummaryStatistics) (xs : List ℚ) :
    List SummaryStatistics :=
  List.zipWith update sts xs

end SummaryStatistics

/-- One parsed line of the per-frame stream, restricted to the fields the
aggregation pass reads: the `pathSummary` scalars, plus (for the profile
pass) the energy profile samples at the support points and the per-frame
energy evaluation.  `energyAt` models the evaluation of the
`LinearSplineInterp1D` spline through the energy samples (modelled from the
spec; the interpolator sources are not available). -/
structure FrameDoc where
  timeStamp : ℚ
  argMinRadius : ℚ
  minRadius : ℚ
  length : ℚ
  volume : ℚ
  numPath : ℚ
  numSample : ℚ
  solventRangeLo : ℚ
  solventRangeHi : ℚ
  argMinSolventDensity : ℚ
  minSolventDensity : ℚ
  arcLengthLo : ℚ
  arcLengthHi : ℚ
  bandWidth : ℚ
  energySamples : List ℚ
  energyAt : ℚ → ℚ

/-- Accumulator state of the first `finishAnalysis` reading loop: one summary
statistic per `pathSummary` scalar, the time stamps, and the number of lines
read.  (The source also keeps per-scalar time-series vectors and the
first-line residue ids; they are not consumed by any claim and are omitted.) -/
structure ScalarAggState where
  argMinRadiusSummary : SummaryStatistics
  minRadiusSummary : SummaryStatistics
  lengthSummary : SummaryStatistics
  volumeSummary : SummaryStatistics
  numPathSummary : SummaryStatistics
  numSampleSummary : SummaryStatistics
  solventRangeLoSummary : SummaryStatistics
  solventRangeHiSummary : SummaryStatistics
  argMinSolventDensitySummary : SummaryStatistics
  minSolventDensitySummary : SummaryStatistics
  arcLengthLoSummary : SummaryStatistics
  arcLengthHiSummary : SummaryStatistics
  bandWidthSummary : SummaryStatistics
  timeStamps : List ℚ
  linesRead : ℕ

/-- The initial accumulator state. -/
def initScalarAgg : ScalarAggState :=
  ⟨.empty, .empty, .empty, .empty, .empty, .empty, .empty, .empty, .empty,
    .empty, .empty, .empty, .empty, [], 0⟩

/-- Body of the first reading loop for one readable line: update every scalar
summary, record the time stamp, increment the line counter. -/
def updateScalarAgg (st : ScalarAggState) (d : FrameDoc) : ScalarAggState :=
  ⟨st.argMinRadiusSummary.update d.argMinRadius,
    st.minRadiusSummary.update d.minRadius,
    st.lengthSummary.update d.length,
    st.volumeSummary.update d.volume,
    st.numPathSummary.update d.numPath,
    st.numSampleSummary.update d.numSample,
    st.solventRangeLoSummary.update d.solventRangeLo,
    st.solventRangeHiSummary.update d.solventRangeHi,
    st.argMinSolventDensitySummary.update d.argMinSolventDensity,
    st.minSolventDensitySummary.update d.minSolventDensity,
    st.arcLengthLoSummary.update d.arcLengthLo,
    st.arcLengthHiSummary.update d.arcLengthHi,
    st.bandWidthSummary.update d.bandWidth,
    st.timeStamps ++ [d.timeStamp],
    st.linesRead + 1⟩

/-- Errors of the aggregation pass: the `runtime_error` thrown when a line is
not a valid JSON object (carrying the zero-based line index used in the
message), and the end-of-pass sanity check that the number of lines read
equals the number of frames analysed. -/
inductive AggError where
  | malformedFrameRecord : ℕ → AggError
  | frameCountMismatch : AggError
deriving DecidableEq

/-- The first reading loop of `finishAnalysis`: each line either parses to a
frame document (`some`) or is not a valid JSON object (`none`).  On an
unreadable line the source throws immediately; no further lines are
processed. -/
def readPassLoop : List (Option FrameDoc) → ScalarAggState →
    Except AggError ScalarAggState
  | [], st => Except.ok st
  | none :: _, st => Except.error (AggError.malformedFrameRecord st.linesRead)
  | some d :: rest, st => readPassLoop rest (updateScalarAgg st d)

/-- The first reading loop followed by the `linesRead != numFrames` sanity
check. -/
def readPass (lines : List (Option FrameDoc)) (numFrames : ℕ) :
    Except AggError ScalarAggState :=
  match readPassLoop lines initScalarAgg with
  | Except.error e => Except.error e
  | Except.ok st =>
      if st.linesRead = numFrames then Except.ok st
      else Except.error AggError.frameCountMismatch

/-- Reference fold for the theorems: the scalar aggregation applied to a list
of already-parsed frame documents. -/
def scalarAggOfDocs (docs : List FrameDoc) : ScalarAggState :=
  docs.foldl updateScalarAgg initScalarAgg

/-- The aggregation loop as the specification words it (for comparison with
`readPass`): skip each unreadable line, count it, continue with the remaining
lines, and let the overall pass fail at the end exactly when the count of
unreadable lines is positive.  Returns the accumulated statistics and the
count of unreadable lines. -/
def specSkipCountLoop : List (Option FrameDoc) → ScalarAggState → ℕ →
    ScalarAggState × ℕ
  | [], st, bad => (st, bad)
  | none :: rest, st, bad => specSkipCountLoop rest st (bad + 1)
  | some d :: rest, st, bad => specSkipCountLoop rest (updateScalarAgg st d) bad

/-- Accumulator state of the energy part of the second (profile) reading
loop: one summary statistic per support point, plus the two anchor-point
energy accumulators.  (The radius, density and hydrophobicity profile
summaries of the source are updated by the same `updateMultiple` pattern and
are not consumed by any claim.) -/
structure ProfileAggState where
  energySummary : List SummaryStatistics
  anchorEnergyLo : SummaryStatistics
  anchorEnergyHi : SummaryStatistics

/-- Body iteration of the profile loop over the parsed frame documents:
update the per-support-point energy summaries from the frame's energy
samples, and update the two anchor accumulators with the frame's energy
evaluated at the anchor points. -/
def profilePassLoop (anchorPointLo anchorPointHi : ℚ) :
    List FrameDoc → ProfileAggState → ProfileAggState
  | [], st => st
  | d :: rest, st =>
      profilePassLoop anchorPointLo anchorPointHi rest
        ⟨SummaryStatistics.updateMultiple st.energySummary d.energySamples,
          st.anchorEnergyLo.update (d.energyAt anchorPointLo),
          st.anchorEnergyHi.update (d.energyAt anchorPointHi)⟩

/-- The initial profile accumulator: `numSupportPoints` fresh summaries. -/
def initProfileAgg (numSupportPoints : ℕ) : ProfileAggState :=
  ⟨List.replicate numSupportPoints SummaryStatistics.empty,
    SummaryStatistics.empty, SummaryStatistics.empty⟩

/-- The energy part of the second reading loop of `finishAnalysis` followed
by the energy-profile shift: after the loop, every support point's energy
summary is shifted by `-0.5 * (anchorEnergyLo.mean + anchorEnergyHi.mean)`. -/
def energyProfilePass (anchorPointLo anchorPointHi : ℚ) (docs : List FrameDoc)
    (numSupportPoints : ℕ) : ProfileAggState :=
  let raw := profilePassLoop anchorPointLo anchorPointHi docs
      (initProfileAgg numSupportPoints)
  let shift : ℚ := -(1 / 2) * (raw.anchorEnergyLo.mean + raw.anchorEnergyHi.mean)
  ⟨raw.energySummary.map (fun s => s.shift shift),
    raw.anchorEnergyLo, raw.anchorEnergyHi⟩

/-- The lower anchor point of the energy profile: the minimum over frames of
the per-frame `arcLengthLo`, read off the first-pass summary statistic
(`anchorPointLo = arcLengthLoSummary.min()` in the source). -/
def anchorPointLo (docs : List FrameDoc) : ℚ :=
  (scalarAggOfDocs docs).arcLengthLoSummary.min

/-- The upper anchor point: the maximum over frames of `arcLengthHi`. -/
def anchorPointHi (docs : List FrameDoc) : ℚ :=
  (scalarAggOfDocs docs).arcLengthHiSummary.max

/-- The arithmetic mean, over frames, of the frame energies evaluated at the
lower anchor point (reference expression for the theorems). -/
def anchorMeanLo (docs : List FrameDoc) : ℚ :=
  (docs.map (fun d => d.energyAt (anchorPointLo docs))).sum / (docs.length : ℚ)

/-- The arithmetic mean, over frames, of the frame energies evaluated at the
upper anchor point. -/
def anchorMeanHi (docs : List FrameDoc) : ℚ :=
  (docs.map (fun d => d.energyAt (anchorPointHi docs))).sum / (docs.length : ℚ)

/-- The constant by which the energy profile is shifted, written with the
anchor means (reference expression for the theorems). -/
def energyShiftConst (docs : List FrameDoc) : ℚ :=
  -(1 / 2) * (anchorMeanLo docs + anchorMeanHi docs)

/-- The energy part of `finishAnalysis` on parsed frame documents: anchor
points from the first pass, profile accumulation and shift from the second. -/
def finishEnergyProfile (docs : List FrameDoc) (numSupportPoints : ℕ) :
    ProfileAggState :=
  energyProfilePass (anchorPointLo docs) (anchorPointHi docs) docs numSupportPoints

/-! ## Wavefront OBJ object (`wavefront_obj_io.cpp`) -/

/-- A vertex of a `WavefrontObjObject` (gmx::RVec). -/
structure Vec3 where
  x : ℚ
  y : ℚ
  z : ℚ
deriving DecidableEq

/-- Componentwise vector addition. -/
def vecAdd (a b : Vec3) : Vec3 :=
  ⟨a.x + b.x, a.y + b.y, a.z + b.z⟩

/-- Componentwise scaling. -/
def vecSmul (f : ℚ) (v : Vec3) : Vec3 :=
  ⟨f * v.x, f * v.y, f * v.z⟩

namespace WavefrontObjObject

/-- The componentwise sum of all vertices (the accumulation loop of
`calculateCog`, starting from the zero vector). -/
def sumVertices (vs : List Vec3) : Vec3 :=
  vs.foldl vecAdd ⟨0, 0, 0⟩

/-- `calculateCog`: sum all vertices and divide each component by
`vertices_.size()`.  There is no emptiness guard in the source; with zero
vertices each component division is `0/0`, which produces no finite value
(IEEE NaN), modelled here as `none`. -/
def calculateCog (vs : List Vec3) : Option Vec3 :=
  let cog := sumVertices vs
  let n : ℚ := (vs.length : ℚ)
  if n = 0 then none else some ⟨cog.x / n, cog.y / n, cog.z / n⟩

/-- `shift`: add the given vector to every vertex. -/
def shift (t : Vec3) (vs : List Vec3) : List Vec3 :=
  vs.map (fun v => vecAdd v t)

/-- `scale`: shift all vertices by the negated centre of geometry, multiply
them componentwise by `fac`, multiply the shift vector by `-fac`, and shift
back.  The centre-of-geometry failure on an empty vertex list propagates. -/
def scale (fac : ℚ) (vs : List Vec3) : Option (List Vec3) :=
  match calculateCog vs with
  | none => none
  | some cog =>
      let sh : Vec3 := ⟨-cog.x, -cog.y, -cog.z⟩
      let vs1 := shift sh vs
      let vs2 := vs1.map (vecSmul fac)
      let sh2 : Vec3 := ⟨sh.x * -fac, sh.y * -fac, sh.z * -fac⟩
      some (shift sh2 vs2)

end WavefrontObjObject

/-! ## Theorems: simulated annealing -/

namespace SimulatedAnnealingModule

/-- The temperature is multiplied by the cooling factor in every branch of
the loop body. -/
theorem annealIter_temp
    (decAcc : (a b c u : ℝ) → Decidable (acceptCandidateState a b c u))
    (decLt : (a b : ℝ) → Decidable (a < b))
    (g : List ℝ → ℝ) (coolingFactor stepLengthFactor : ℝ)
    (noise : List ℝ) (u : ℝ) (s : SAState) :
    (annealIter decAcc decLt g coolingFactor stepLengthFactor noise u s).temp =
      s.temp * coolingFactor := by
  simp only [annealIter, cool]
  by_cases hA : acceptCandidateState
      (g (generateCandidateStateIsotropic stepLengthFactor s.crntState noise))
      s.crntCost s.temp u
  · rw [if_pos hA]
    by_cases hB : s.bestCost <
        g (generateCandidateStateIsotropic stepLengthFactor s.crntState noise)
    · rw [if_pos hB]
    · rw [if_neg hB]
  · rw [if_neg hA]

/-- The loop body preserves the invariant that the stored best cost is the
objective value of the stored best state. -/
theorem annealIter_best_inv
    (decAcc : (a b c u : ℝ) → Decidable (acceptCandidateState a b c u))
    (decLt : (a b : ℝ) → Decidable (a < b))
    (g : List ℝ → ℝ) (coolingFactor stepLengthFactor : ℝ)
    (noise : List ℝ) (u : ℝ) (s : SAState)
    (h : s.bestCost = g s.bestState) :
    (annealIter decAcc decLt g coolingFactor stepLengthFactor noise u s).bestCost =
      g (annealIter decAcc decLt g coolingFactor stepLengthFactor noise u s).bestState := by
  simp only [annealIter, cool]
  by_cases hA : acceptCandidateState
      (g (generateCandidateStateIsotropic stepLengthFactor s.crntState noise))
      s.crntCost s.temp u
  · rw [if_pos hA]
    by_cases hB : s.bestCost <
        g (generateCandidateStateIsotropic stepLengthFactor s.crntState noise)
    · rw [if_pos hB]
    · rw [if_neg hB]
      exact h
  · rw [if_neg hA]
    exact h

/-- Claim C1: in every iteration the candidate is accepted exactly when the
uniform draw is below `min(exp((g(cand)-g(cur))/T), 1)`; on acceptance the
current state becomes the candidate, and the best state is replaced by the
candidate exactly when `g(cand) > g(best)` (and is kept otherwise); on
rejection the current and best states are unchanged; after the iteration the
temperature is multiplied by the cooling factor. -/
theorem sa_iteration_metropolis
    (decAcc : (a b c u : ℝ) → Decidable (acceptCandidateState a b c u))
    (decLt : (a b : ℝ) → Decidable (a < b))
    (g : List ℝ → ℝ) (coolingFactor stepLengthFactor : ℝ)
    (noise : List ℝ) (u : ℝ) (s : SAState) (cand : List ℝ)
    (hcand : cand = generateCandidateStateIsotropic stepLengthFactor s.crntState noise)
    (hc : s.crntCost = g s.crntState)
    (hb : s.bestCost = g s.bestState) :
    (acceptCandidateState (g cand) s.crntCost s.temp u ↔
      u < min (Real.exp ((g cand - g s.crntState) / s.temp)) 1)
    ∧ (acceptCandidateState (g cand) s.crntCost s.temp u →
        (annealIter decAcc decLt g coolingFactor stepLengthFactor noise u s).crntState = cand
        ∧ (annealIter decAcc decLt g coolingFactor stepLengthFactor noise u s).crntCost = g cand
        ∧ (g s.bestState < g cand →
            (annealIter decAcc decLt g coolingFactor stepLengthFactor noise u s).bestState = cand
            ∧ (annealIter decAcc decLt g coolingFactor stepLengthFactor noise u s).bestCost = g cand)
        ∧ (¬ g s.bestState < g cand →
            (annealIter decAcc decLt g coolingFactor stepLengthFactor noise u s).bestState = s.bestState
            ∧ (annealIter decAcc decLt g coolingFactor stepLengthFactor noise u s).bestCost = s.bestCost))
    ∧ (¬ acceptCandidateState (g cand) s.crntCost s.temp u →
        (annealIter decAcc decLt g coolingFactor stepLengthFactor noise u s).crntState = s.crntState
        ∧ (annealIter decAcc decLt g coolingFactor stepLengthFactor noise u s).crntCost = s.crntCost
        ∧ (annealIter decAcc decLt g coolingFactor stepLengthFactor noise u s).bestState = s.bestState
        ∧ (annealIter decAcc decLt g coolingFactor stepLengthFactor noise u s).bestCost = s.bestCost)
    ∧ (annealIter decAcc decLt g coolingFactor stepLengthFactor noise u s).temp =
        s.temp * coolingFactor := by
  subst hcand
  refine ⟨?_, ?_, ?_, ?_⟩
  · rw [hc]
    exact Iff.rfl
  · intro hA
    simp only [annealIter, cool]
    rw [if_pos hA]
    by_cases hB : s.bestCost <
        g (generateCandidateStateIsotropic stepLengthFactor s.crntState noise)
    · rw [if_pos hB]
      refine ⟨rfl, rfl, fun _ => ⟨rfl, rfl⟩, fun hn => absurd ?_ hn⟩
      rw [← hb]
      exact hB
    · rw [if_neg hB]
      refine ⟨rfl, rfl, fun hlt => absurd ?_ hB, fun _ => ⟨rfl, rfl⟩⟩
      rw [hb]
      exact hlt
  · intro hA
    simp only [annealIter, cool]
    rw [if_neg hA]
    exact ⟨rfl, rfl, rfl, rfl⟩
  · exact annealIter_temp decAcc decLt g coolingFactor stepLengthFactor noise u s

/-- Witness for C1: a concrete rejected iteration (`u = 2` can never be below
an acceptance probability capped at `1`) leaves the current state unchanged
and cools the temperature from `1` to `1/2`. -/
theorem sa_iteration_metropolis_witness :
    (annealIter (fun a b c u => Classical.propDecidable (acceptCandidateState a b c u))
      (fun a b => Classical.propDecidable (a < b))
      (fun _ => (0 : ℝ)) (1 / 2) 0 [] 2 ⟨[], 0, [], 0, [], 0, 1⟩).crntState = []
    ∧ (annealIter (fun a b c u => Classical.propDecidable (acceptCandidateState a b c u))
      (fun a b => Classical.propDecidable (a < b))
      (fun _ => (0 : ℝ)) (1 / 2) 0 [] 2 ⟨[], 0, [], 0, [], 0, 1⟩).temp = 1 * (1 / 2) := by
  have h := sa_iteration_metropolis
    (fun a b c u => Classical.propDecidable (acceptCandidateState a b c u))
    (fun a b => Classical.propDecidable (a < b))
    (fun _ => (0 : ℝ)) (1 / 2) 0 [] 2 ⟨[], 0, [], 0, [], 0, 1⟩ [] rfl rfl rfl
  have hrej : ¬ acceptCandidateState ((fun _ => (0 : ℝ)) ([] : List ℝ)) 0 1 2 := by
    simp only [acceptCandidateState]
    norm_num [Real.exp_zero]
  exact ⟨(h.2.2.1 hrej).1, h.2.2.2⟩

/-- The while-loop equals the reference shape that applies the body exactly
`max 1 (maxCoolingIter - n)` times: the body always runs at least once
because the termination test follows the body. -/
theorem annealLoop_eq_iterN
    (decAcc : (a b c u : ℝ) → Decidable (acceptCandidateState a b c u))
    (decLt : (a b : ℝ) → Decidable (a < b))
    (g : List ℝ → ℝ) (coolingFactor stepLengthFactor : ℝ)
    (stream : ℕ → List ℝ × ℝ) (maxCoolingIter : ℤ) :
    ∀ (k n : ℕ) (s : SAState), (maxCoolingIter - n).toNat = k →
      annealLoop decAcc decLt g coolingFactor stepLengthFactor stream maxCoolingIter n s =
        annealIterN decAcc decLt g coolingFactor stepLengthFactor stream (max 1 k) n s := by
  intro k
  induction k with
  | zero =>
    intro n s hk
    rw [annealLoop]
    rw [if_pos (by omega : (n + 1 : ℤ) ≥ maxCoolingIter)]
    rfl
  | succ k ih =>
    intro n s hk
    rw [annealLoop]
    by_cases hcond : (n + 1 : ℤ) ≥ maxCoolingIter
    · rw [if_pos hcond]
      have hk0 : k = 0 := by omega
      subst hk0
      rfl
    · rw [if_neg hcond]
      have hk' : (maxCoolingIter - (n + 1 : ℕ)).toNat = k := by
        push_cast
        omega
      rw [ih (n + 1) _ hk']
      have h1k : 1 ≤ k := by omega
      rw [max_eq_right h1k, max_eq_right (by omega : 1 ≤ k + 1)]
      rfl

/-- The reference loop shape preserves the best-cost invariant. -/
theorem annealIterN_best_inv
    (decAcc : (a b c u : ℝ) → Decidable (acceptCandidateState a b c u))
    (decLt : (a b : ℝ) → Decidable (a < b))
    (g : List ℝ → ℝ) (coolingFactor stepLengthFactor : ℝ)
    (stream : ℕ → List ℝ × ℝ) :
    ∀ (k n : ℕ) (s : SAState), s.bestCost = g s.bestState →
      (annealIterN decAcc decLt g coolingFactor stepLengthFactor stream k n s).bestCost =
        g (annealIterN decAcc decLt g coolingFactor stepLengthFactor stream k n s).bestState := by
  intro k
  induction k with
  | zero => intro n s h; exact h
  | succ k ih =>
    intro n s h
    exact ih (n + 1) _ (annealIter_best_inv decAcc decLt g coolingFactor
      stepLengthFactor (stream n).1 (stream n).2 s h)

/-- Claim C2 (amended): the annealing run performs exactly
`max 1 maxCoolingIter` candidate-generation/cooling iterations — one
iteration, not zero, when `maxCoolingIter ≤ 0`, because the loop body runs
before the termination test — and the returned optimum is the pair of the
best state and its objective value. -/
theorem annealing_iteration_count_and_result
    (decAcc : (a b c u : ℝ) → Decidable (acceptCandidateState a b c u))
    (decLt : (a b : ℝ) → Decidable (a < b))
    (g : List ℝ → ℝ) (coolingFactor stepLengthFactor : ℝ)
    (stream : ℕ → List ℝ × ℝ) (maxCoolingIter : ℤ) (initTemp : ℝ)
    (guess : List ℝ) :
    anneal decAcc decLt g coolingFactor stepLengthFactor stream maxCoolingIter
        initTemp guess =
      annealIterN decAcc decLt g coolingFactor stepLengthFactor stream
        (max 1 maxCoolingIter.toNat) 0 (setInitState g initTemp guess)
    ∧ getOptimPoint (anneal decAcc decLt g coolingFactor stepLengthFactor stream
        maxCoolingIter initTemp guess) =
      ((anneal decAcc decLt g coolingFactor stepLengthFactor stream maxCoolingIter
          initTemp guess).bestState,
        g (anneal decAcc decLt g coolingFactor stepLengthFactor stream maxCoolingIter
          initTemp guess).bestState) := by
  have hmain : anneal decAcc decLt g coolingFactor stepLengthFactor stream
      maxCoolingIter initTemp guess =
      annealIterN decAcc decLt g coolingFactor stepLengthFactor stream
        (max 1 maxCoolingIter.toNat) 0 (setInitState g initTemp guess) := by
    unfold anneal annealIsotropic
    exact annealLoop_eq_iterN decAcc decLt g coolingFactor stepLengthFactor stream
      maxCoolingIter maxCoolingIter.toNat 0 _ (by omega)
  refine ⟨hmain, ?_⟩
  unfold getOptimPoint
  rw [hmain]
  rw [annealIterN_best_inv decAcc decLt g coolingFactor stepLengthFactor stream
    (max 1 maxCoolingIter.toNat) 0 (setInitState g initTemp guess) rfl]

/-- Counterexample to C2 as stated: with `maxCoolingIter = 0` the run still
performs one iteration — the temperature comes back multiplied by the
cooling factor (`1/2` instead of the initial `1`), while zero iterations
would have left it unchanged. -/
theorem annealing_zero_iter_counterexample :
    (annealIsotropic (fun a b c u => Classical.propDecidable (acceptCandidateState a b c u))
      (fun a b => Classical.propDecidable (a < b))
      (fun _ => (0 : ℝ)) (1 / 2) 0 (fun _ => ([], 0)) 0 ⟨[], 0, [], 0, [], 0, 1⟩).temp = 1 / 2
    ∧ ((1 : ℝ) / 2) ≠ 1 := by
  constructor
  · rw [annealIsotropic, annealLoop]
    simp only []
    rw [if_pos (by norm_num : ((0 : ℕ) + 1 : ℤ) ≥ 0)]
    rw [annealIter_temp]
    norm_num
  · norm_num

/-- Claim C3 (amended): `setParams` aborts with a missing-parameter error
exactly when one of `saMaxCoolingIter`, `saInitTemp`, `saCoolingFactor`,
`saStepLengthFactor` is absent (checked in that order); an absent `saSeed` is
silently ignored, keeping the previous member value; present values are
stored without any validation, so a non-positive temperature or a cooling
factor outside `(0,1)` is accepted. -/
theorem setParams_behaviour (p : String → Option ℝ) (m : SAParams) :
    (∀ mci t cf slf, p "saMaxCoolingIter" = some mci → p "saInitTemp" = some t →
        p "saCoolingFactor" = some cf → p "saStepLengthFactor" = some slf →
        setParams p m = Except.ok
          ⟨(match p "saSeed" with | some v => v | none => m.seed), mci, t, cf, slf⟩)
    ∧ (p "saMaxCoolingIter" = none →
        setParams p m = Except.error SAConfigError.missingParameter)
    ∧ (∀ mci, p "saMaxCoolingIter" = some mci → p "saInitTemp" = none →
        setParams p m = Except.error SAConfigError.missingParameter)
    ∧ (∀ mci t, p "saMaxCoolingIter" = some mci → p "saInitTemp" = some t →
        p "saCoolingFactor" = none →
        setParams p m = Except.error SAConfigError.missingParameter)
    ∧ (∀ mci t cf, p "saMaxCoolingIter" = some mci → p "saInitTemp" = some t →
        p "saCoolingFactor" = some cf → p "saStepLengthFactor" = none →
        setParams p m = Except.error SAConfigError.missingParameter) := by
  refine ⟨?_, ?_, ?_, ?_, ?_⟩
  · intro mci t cf slf h1 h2 h3 h4
    unfold setParams
    rw [h1, h2, h3, h4]
    cases hs : p "saSeed" <;> rfl
  · intro h1
    unfold setParams
    rw [h1]
  · intro mci h1 h2
    unfold setParams
    rw [h1, h2]
  · intro mci t h1 h2 h3
    unfold setParams
    rw [h1, h2, h3]
  · intro mci t cf h1 h2 h3 h4
    unfold setParams
    rw [h1, h2, h3, h4]

/-- Witness for the amended C3: a concrete map with the four required
parameters present is stored verbatim (the absent seed keeps the previous
member value). -/
theorem setParams_behaviour_witness :
    setParams
      (fun k => if k = "saMaxCoolingIter" then some 100
        else if k = "saInitTemp" then some 10
        else if k = "saCoolingFactor" then some (98 / 100)
        else if k = "saStepLengthFactor" then some (1 / 1000)
        else none)
      ⟨7, 0, 0, 0, 0⟩ = Except.ok ⟨7, 100, 10, 98 / 100, 1 / 1000⟩ := by
  have h := (setParams_behaviour
    (fun k => if k = "saMaxCoolingIter" then some 100
      else if k = "saInitTemp" then some 10
      else if k = "saCoolingFactor" then some (98 / 100)
      else if k = "saStepLengthFactor" then some (1 / 1000)
      else none)
    ⟨7, 0, 0, 0, 0⟩).1 100 10 (98 / 100) (1 / 1000) rfl rfl rfl rfl
  exact h

/-- Counterexample to C3 as stated: with `saSeed` absent, a non-positive
initial temperature and a cooling factor of `2`, `setParams` succeeds — no
missing-parameter failure for the seed and no temperature or cooling-factor
validation. -/
theorem setParams_counterexample :
    setParams
      (fun k => if k = "saMaxCoolingIter" then some 100
        else if k = "saInitTemp" then some (-1)
        else if k = "saCoolingFactor" then some 2
        else if k = "saStepLengthFactor" then some (1 / 100)
        else none)
      ⟨0, 0, 0, 0, 0⟩ = Except.ok ⟨0, 100, -1, 2, 1 / 100⟩ := by
  rfl

end SimulatedAnnealingModule

/-! ## Theorems: list fold helpers -/

/-- A `min`-fold is bounded by its initial accumulator. -/
theorem foldl_min_le_init (xs : List ℚ) : ∀ a : ℚ, xs.foldl min a ≤ a := by
  induction xs with
  | nil => intro a; exact le_rfl
  | cons x xs ih =>
    intro a
    calc (x :: xs).foldl min a = xs.foldl min (min a x) := rfl
    _ ≤ min a x := ih (min a x)
    _ ≤ a := min_le_left a x

/-- A `min`-fold is bounded by every list element. -/
theorem foldl_min_le_mem (xs : List ℚ) :
    ∀ (a x : ℚ), x ∈ xs → xs.foldl min a ≤ x := by
  induction xs with
  | nil => intro a x hx; cases hx
  | cons y ys ih =>
    intro a x hx
    rcases List.mem_cons.mp hx with h | h
    · subst h
      calc (x :: ys).foldl min a = ys.foldl min (min a x) := rfl
      _ ≤ min a x := foldl_min_le_init ys (min a x)
      _ ≤ x := min_le_right a x
    · exact ih (min a y) x h

/-- A `max`-fold dominates its initial accumulator. -/
theorem foldl_max_init_le (xs : List ℚ) : ∀ a : ℚ, a ≤ xs.foldl max a := by
  induction xs with
  | nil => intro a; exact le_rfl
  | cons x xs ih =>
    intro a
    calc a ≤ max a x := le_max_left a x
    _ ≤ xs.foldl max (max a x) := ih (max a x)
    _ = (x :: xs).foldl max a := rfl

/-- A `max`-fold dominates every list element. -/
theorem foldl_max_mem_le (xs : List ℚ) :
    ∀ (a x : ℚ), x ∈ xs → x ≤ xs.foldl max a := by
  induction xs with
  | nil => intro a x hx; cases hx
  | cons y ys ih =>
    intro a x hx
    rcases List.mem_cons.mp hx with h | h
    · subst h
      calc x ≤ max a x := le_max_right a x
      _ ≤ ys.foldl max (max a x) := foldl_max_init_le ys (max a x)
      _ = (x :: ys).foldl max a := rfl
    · exact ih (max a y) x h

/-! ## Theorems: mapped records (C4) and residue labels (C5) -/

/-- Counterexample to C4 as stated: the residue record applies `std::sqrt` to
the mapped radial coordinate, so when the particle-to-centreline distance is
`4` the recorded value is `2`, not the distance. -/
theorem residue_record_rho_counterexample :
    (residueStreamRecord Real.sqrt 0 ⟨0, 4, 0⟩ true true 0 0 0 0 0).rho ≠
      (MappedCoord.mk 0 4 0).rho := by
  have hL : (residueStreamRecord Real.sqrt 0 ⟨0, 4, 0⟩ true true 0 0 0 0 0).rho =
      Real.sqrt 4 := rfl
  have hR : (MappedCoord.mk 0 4 0).rho = 4 := rfl
  rw [hL, hR]
  rw [show (4 : ℝ) = 2 ^ 2 by norm_num, Real.sqrt_sq (by norm_num : (0 : ℝ) ≤ 2)]
  norm_num

/-- Claim C4 (amended): the solvent record carries the mapped radial
coordinate verbatim — the Euclidean distance under the spec model of
`mapSelection` — with azimuth hard-coded to `0`, while the residue record
carries the square root of the mapped radial coordinate together with the
mapped azimuth; all recorded radial coordinates are non-negative and all
recorded azimuths lie in `[-π, π]`. -/
theorem stream_record_coordinates (resId : ℝ) (mc : MappedCoord)
    (lining facing insidePore insideSample : Bool)
    (poreRadius solventDensity x y z : ℝ)
    (hrho : 0 ≤ mc.rho) (hphiLo : -Real.pi ≤ mc.phi) (hphiHi : mc.phi ≤ Real.pi) :
    (solventStreamRecord resId mc insidePore insideSample x y z).rho = mc.rho
    ∧ 0 ≤ (solventStreamRecord resId mc insidePore insideSample x y z).rho
    ∧ -Real.pi ≤ (solventStreamRecord resId mc insidePore insideSample x y z).phi
    ∧ (solventStreamRecord resId mc insidePore insideSample x y z).phi ≤ Real.pi
    ∧ (residueStreamRecord Real.sqrt resId mc lining facing poreRadius
        solventDensity x y z).rho = Real.sqrt mc.rho
    ∧ 0 ≤ (residueStreamRecord Real.sqrt resId mc lining facing poreRadius
        solventDensity x y z).rho
    ∧ (residueStreamRecord Real.sqrt resId mc lining facing poreRadius
        solventDensity x y z).phi = mc.phi
    ∧ -Real.pi ≤ (residueStreamRecord Real.sqrt resId mc lining facing poreRadius
        solventDensity x y z).phi
    ∧ (residueStreamRecord Real.sqrt resId mc lining facing poreRadius
        solventDensity x y z).phi ≤ Real.pi := by
  have hpi : (0 : ℝ) < Real.pi := Real.pi_pos
  refine ⟨rfl, hrho, ?_, ?_, rfl, Real.sqrt_nonneg mc.rho, rfl, hphiLo, hphiHi⟩
  · show -Real.pi ≤ (0 : ℝ)
    linarith
  · show (0 : ℝ) ≤ Real.pi
    linarith

/-- Witness for the amended C4 at a mapped coordinate with distance `1`. -/
theorem stream_record_coordinates_witness :
    (solventStreamRecord 0 ⟨0, 1, 0⟩ true true 0 0 0).rho = 1
    ∧ (residueStreamRecord Real.sqrt 0 ⟨0, 1, 0⟩ true true 0 0 0 0 0).rho =
        Real.sqrt 1 := by
  have h := stream_record_coordinates 0 ⟨0, 1, 0⟩ true true true true 0 0 0 0 0
    (by norm_num)
    (by show -Real.pi ≤ (0 : ℝ); linarith [Real.pi_pos])
    (by show (0 : ℝ) ≤ Real.pi; linarith [Real.pi_pos])
  exact ⟨h.1, h.2.2.2.2.1⟩

/-- Claim C5: a residue is labelled pore-facing exactly when it is
pore-lining and its centre of geometry lies closer to the centreline than
its C-alpha atom; in particular every pore-facing residue is pore-lining. -/
theorem pore_facing_iff_lining_and_closer (R : ℝ → ℝ) (margin : ℝ)
    (cog cal : MappedCoord) :
    (poreFacing R margin cog cal ↔
      (poreLining R margin cog ∧ cog.rho < cal.rho))
    ∧ (poreFacing R margin cog cal → poreLining R margin cog) := by
  unfold poreFacing
  exact ⟨and_comm, fun h => h.2⟩

/-- Witness for C5: a concrete pore-facing residue (distance `1` against a
local radius of `2` and a C-alpha distance of `3/2`) is pore-lining. -/
theorem pore_facing_iff_lining_and_closer_witness :
    poreLining (fun _ => (2 : ℝ)) 0 ⟨0, 1, 0⟩ := by
  refine (pore_facing_iff_lining_and_closer (fun _ => (2 : ℝ)) 0 ⟨0, 1, 0⟩
    ⟨0, 3 / 2, 0⟩).2 ?_
  constructor
  · show (1 : ℝ) < 3 / 2
    norm_num
  · show (1 : ℝ) ≤ (fun _ => (2 : ℝ)) (0 : ℝ) + 0
    norm_num

/-! ## Theorems: hydrophobicity-sample padding (C6) -/

/-- Counterexample to C6 as stated: with bandwidth `2` and a single residue
at arc length `0`, the mock samples are appended at `-1` and `1` (half a
bandwidth away), not at `-2` and `2` (one bandwidth away) as the claim
requires. -/
theorem padding_counterexample :
    (plSmootherInput 2 [⟨0, 5, true, true⟩]).1 = [0, -1, 1]
    ∧ [(0 : ℚ), -1, 1] ≠ [0, 0 - 2, 0 + 2] := by
  constructor
  · show paddedCoordS 2 [⟨0, 5, true, true⟩] (plResidueCoordS [⟨0, 5, true, true⟩]) =
      [0, -1, 1]
    rw [show plResidueCoordS [(⟨0, 5, true, true⟩ : ResidueSample)] = [0] from rfl]
    rw [show paddedCoordS 2 [(⟨0, 5, true, true⟩ : ResidueSample)] [0] =
      [0] ++ [0 - 2 / 2, 0 + 2 / 2] from rfl]
    norm_num
  · intro hcontra
    have h1 : ((-1 : ℚ)) = 0 - 2 := by
      have := List.cons.inj hcontra
      exact (List.cons.inj this.2).1
    norm_num at h1

/-- Claim C6 (amended): before the kernel smoothing, both hydrophobicity
sample sets are zero-padded at half a bandwidth outside the mapped residue
range: a zero-valued sample is appended at `min(s) - bandwidth/2` and one at
`max(s) + bandwidth/2`, where the minimum and maximum range over all mapped
residues of the frame. -/
theorem padding_half_bandwidth (h : ℚ) (r0 : ResidueSample)
    (rest : List ResidueSample) :
    (plSmootherInput h (r0 :: rest)).1 =
      plResidueCoordS (r0 :: rest) ++
        [(rest.map ResidueSample.s).foldl min r0.s - h / 2,
          (rest.map ResidueSample.s).foldl max r0.s + h / 2]
    ∧ (plSmootherInput h (r0 :: rest)).2 =
        plResidueHydrophobicity (r0 :: rest) ++ [0, 0]
    ∧ (pfSmootherInput h (r0 :: rest)).1 =
        pfResidueCoordS (r0 :: rest) ++
          [(rest.map ResidueSample.s).foldl min r0.s - h / 2,
            (rest.map ResidueSample.s).foldl max r0.s + h / 2]
    ∧ (pfSmootherInput h (r0 :: rest)).2 =
        pfResidueHydrophobicity (r0 :: rest) ++ [0, 0]
    ∧ (∀ r ∈ r0 :: rest, (rest.map ResidueSample.s).foldl min r0.s ≤ r.s)
    ∧ (∀ r ∈ r0 :: rest, r.s ≤ (rest.map ResidueSample.s).foldl max r0.s) := by
  have hmin : minPoreResS (r0 :: rest) =
      some ((rest.map ResidueSample.s).foldl min r0.s) := rfl
  have hmax : maxPoreResS (r0 :: rest) =
      some ((rest.map ResidueSample.s).foldl max r0.s) := rfl
  refine ⟨?_, ?_, ?_, ?_, ?_, ?_⟩
  · simp [plSmootherInput, paddedCoordS, hmin, hmax]
  · simp [plSmootherInput, paddedHydrophobicity, hmin, hmax]
  · simp [pfSmootherInput, paddedCoordS, hmin, hmax]
  · simp [pfSmootherInput, paddedHydrophobicity, hmin, hmax]
  · intro r hr
    rcases List.mem_cons.mp hr with h1 | h1
    · subst h1
      exact foldl_min_le_init (rest.map ResidueSample.s) r.s
    · exact foldl_min_le_mem (rest.map ResidueSample.s) r0.s r.s
        (List.mem_map_of_mem ResidueSample.s h1)
  · intro r hr
    rcases List.mem_cons.mp hr with h1 | h1
    · subst h1
      exact foldl_max_init_le (rest.map ResidueSample.s) r.s
    · exact foldl_max_mem_le (rest.map ResidueSample.s) r0.s r.s
        (List.mem_map_of_mem ResidueSample.s h1)

/-- Witness for the amended C6: two residues at arc lengths `1` and `5` with
bandwidth `4` produce mock pore-lining samples at `-1` and `7`. -/
theorem padding_half_bandwidth_witness :
    (plSmootherInput 4 [⟨1, 2, true, false⟩, ⟨5, 3, false, true⟩]).1 =
      [1, -1, 7] := by
  have h := (padding_half_bandwidth 4 ⟨1, 2, true, false⟩
    [⟨5, 3, false, true⟩]).1
  rw [h]
  rw [show plResidueCoordS [(⟨1, 2, true, false⟩ : ResidueSample),
    ⟨5, 3, false, true⟩] = [1] from rfl]
  rw [show (List.map ResidueSample.s [(⟨5, 3, false, true⟩ : ResidueSample)]).foldl
    min (ResidueSample.s ⟨1, 2, true, false⟩) = min 1 5 from rfl]
  rw [show (List.map ResidueSample.s [(⟨5, 3, false, true⟩ : ResidueSample)]).foldl
    max (ResidueSample.s ⟨1, 2, true, false⟩) = max 1 5 from rfl]
  norm_num

/-! ## Theorems: Welford summary statistics -/

namespace SummaryStatistics

/-- Folding updates adds the number of samples to the count. -/
theorem foldl_update_count (xs : List ℚ) :
    ∀ st : SummaryStatistics, (xs.foldl update st).count = st.count + xs.length := by
  induction xs with
  | nil => intro st; simp
  | cons x xs ih =>
    intro st
    rw [List.foldl_cons, ih (st.update x)]
    show st.count + 1 + xs.length = st.count + (x :: xs).length
    simp
    omega

/-- The Welford mean of a fold is the weighted arithmetic mean of the
accumulator's mean and the folded samples. -/
theorem foldl_update_mean (xs : List ℚ) :
    ∀ st : SummaryStatistics, 0 < st.count + xs.length →
      (xs.foldl update st).mean =
        ((st.count : ℚ) * st.mean + xs.sum) /
          ((st.count : ℚ) + (xs.length : ℚ)) := by
  induction xs with
  | nil =>
    intro st h
    have h0 : st.count ≠ 0 := by
      simp only [List.length_nil, Nat.add_zero] at h
      omega
    have hc : (st.count : ℚ) ≠ 0 := by
      exact_mod_cast h0
    simp only [List.foldl_nil, List.sum_nil, List.length_nil, Nat.cast_zero,
      add_zero]
    field_simp
  | cons x xs ih =>
    intro st h
    rw [List.foldl_cons,
      ih (st.update x) (by show 0 < st.count + 1 + xs.length; omega)]
    have hcount : (st.update x).count = st.count + 1 := rfl
    have hmean : (st.update x).mean = st.mean + (x - st.mean) / ((st.count : ℚ) + 1) := by
      have hm : (st.update x).mean =
          st.mean + (x - st.mean) / (((st.count + 1 : ℕ) : ℚ)) := rfl
      rw [hm]
      push_cast
      ring
    rw [hcount, hmean]
    have h1 : ((st.count : ℚ) + 1) ≠ 0 := by positivity
    have h2 : ((st.count : ℚ) + 1 + (xs.length : ℚ)) ≠ 0 := by positivity
    have h3 : ((st.count : ℚ) + ((xs.length : ℚ) + 1)) ≠ 0 := by positivity
    rw [List.sum_cons, List.length_cons]
    push_cast
    field_simp
    ring

/-- A fold of updates into an accumulator that has already seen a sample
tracks the running minimum. -/
theorem foldl_update_min (xs : List ℚ) :
    ∀ st : SummaryStatistics, st.count ≠ 0 →
      (xs.foldl update st).min = xs.foldl Min.min st.min := by
  induction xs with
  | nil => intro st _; rfl
  | cons x xs ih =>
    intro st h
    rw [List.foldl_cons, List.foldl_cons,
      ih (st.update x) (by show st.count + 1 ≠ 0; omega)]
    have hm : (st.update x).min = Min.min st.min x := by
      show (if st.count = 0 then x else Min.min st.min x) = Min.min st.min x
      rw [if_neg h]
    rw [hm]

/-- Folding a non-empty sample list into a fresh accumulator yields the
minimum of the samples. -/
theorem foldl_update_min_empty (x : ℚ) (xs : List ℚ) :
    ((x :: xs).foldl update empty).min = xs.foldl Min.min x := by
  rw [List.foldl_cons,
    foldl_update_min xs (empty.update x) (by show 0 + 1 ≠ 0; omega)]
  have hm : (empty.update x).min = x := rfl
  rw [hm]

/-- Dual of `foldl_update_min` for the maximum. -/
theorem foldl_update_max (xs : List ℚ) :
    ∀ st : SummaryStatistics, st.count ≠ 0 →
      (xs.foldl update st).max = xs.foldl Max.max st.max := by
  induction xs with
  | nil => intro st _; rfl
  | cons x xs ih =>
    intro st h
    rw [List.foldl_cons, List.foldl_cons,
      ih (st.update x) (by show st.count + 1 ≠ 0; omega)]
    have hm : (st.update x).max = Max.max st.max x := by
      show (if st.count = 0 then x else Max.max st.max x) = Max.max st.max x
      rw [if_neg h]
    rw [hm]

/-- Dual of `foldl_update_min_empty` for the maximum. -/
theorem foldl_update_max_empty (x : ℚ) (xs : List ℚ) :
    ((x :: xs).foldl update empty).max = xs.foldl Max.max x := by
  rw [List.foldl_cons,
    foldl_update_max xs (empty.update x) (by show 0 + 1 ≠ 0; omega)]
  have hm : (empty.update x).max = x := rfl
  rw [hm]

end SummaryStatistics

/-! ## Theorems: aggregation pass (C7, C8) -/

/-- The `arcLengthLo` summary of the scalar fold is the fold of the
`arcLengthLo` values. -/
theorem foldl_updateScalarAgg_arcLo (docs : List FrameDoc) :
    ∀ st : ScalarAggState, (docs.foldl updateScalarAgg st).arcLengthLoSummary =
      (docs.map FrameDoc.arcLengthLo).foldl SummaryStatistics.update
        st.arcLengthLoSummary := by
  induction docs with
  | nil => intro st; rfl
  | cons d docs ih =>
    intro st
    rw [List.foldl_cons, ih (updateScalarAgg st d)]
    rfl

/-- The `arcLengthHi` summary of the scalar fold is the fold of the
`arcLengthHi` values. -/
theorem foldl_updateScalarAgg_arcHi (docs : List FrameDoc) :
    ∀ st : ScalarAggState, (docs.foldl updateScalarAgg st).arcLengthHiSummary =
      (docs.map FrameDoc.arcLengthHi).foldl SummaryStatistics.update
        st.arcLengthHiSummary := by
  induction docs with
  | nil => intro st; rfl
  | cons d docs ih =>
    intro st
    rw [List.foldl_cons, ih (updateScalarAgg st d)]
    rfl

/-- The scalar fold counts its input lines. -/
theorem foldl_updateScalarAgg_linesRead (docs : List FrameDoc) :
    ∀ st : ScalarAggState,
      (docs.foldl updateScalarAgg st).linesRead = st.linesRead + docs.length := by
  induction docs with
  | nil => intro st; simp
  | cons d docs ih =>
    intro st
    rw [List.foldl_cons, ih (updateScalarAgg st d)]
    show st.linesRead + 1 + docs.length = st.linesRead + (d :: docs).length
    simp
    omega

/-- The lower anchor accumulator of the profile loop folds the per-frame
energies evaluated at the lower anchor point. -/
theorem profilePassLoop_anchorLo (aLo aHi : ℚ) (docs : List FrameDoc) :
    ∀ st : ProfileAggState, (profilePassLoop aLo aHi docs st).anchorEnergyLo =
      (docs.map (fun d => d.energyAt aLo)).foldl SummaryStatistics.update
        st.anchorEnergyLo := by
  induction docs with
  | nil => intro st; rfl
  | cons d docs ih =>
    intro st
    rw [profilePassLoop, ih]
    rfl

/-- The upper anchor accumulator of the profile loop folds the per-frame
energies evaluated at the upper anchor point. -/
theorem profilePassLoop_anchorHi (aLo aHi : ℚ) (docs : List FrameDoc) :
    ∀ st : ProfileAggState, (profilePassLoop aLo aHi docs st).anchorEnergyHi =
      (docs.map (fun d => d.energyAt aHi)).foldl SummaryStatistics.update
        st.anchorEnergyHi := by
  induction docs with
  | nil => intro st; rfl
  | cons d docs ih =>
    intro st
    rw [profilePassLoop, ih]
    rfl

/-- Claim C7: after the aggregation pass, every support point's energy
summary is shifted by the same constant `-(1/2)·(meanLo + meanHi)`, where
`meanLo`/`meanHi` are the means over frames of the energy evaluated at the
anchor points `min(sLo)`/`max(sHi)`; consequently the mean of the two shifted
anchor energies is zero.  The anchor points are the extremes of the per-frame
pathway endpoints. -/
theorem energy_profile_shift_spec (d0 : FrameDoc) (rest : List FrameDoc) (n : ℕ) :
    (finishEnergyProfile (d0 :: rest) n).energySummary =
      (profilePassLoop (anchorPointLo (d0 :: rest)) (anchorPointHi (d0 :: rest))
        (d0 :: rest) (initProfileAgg n)).energySummary.map
          (fun s => s.shift (energyShiftConst (d0 :: rest)))
    ∧ (profilePassLoop (anchorPointLo (d0 :: rest)) (anchorPointHi (d0 :: rest))
        (d0 :: rest) (initProfileAgg n)).anchorEnergyLo.mean =
          anchorMeanLo (d0 :: rest)
    ∧ (profilePassLoop (anchorPointLo (d0 :: rest)) (anchorPointHi (d0 :: rest))
        (d0 :: rest) (initProfileAgg n)).anchorEnergyHi.mean =
          anchorMeanHi (d0 :: rest)
    ∧ (anchorMeanLo (d0 :: rest) + energyShiftConst (d0 :: rest) +
        (anchorMeanHi (d0 :: rest) + energyShiftConst (d0 :: rest))) / 2 = 0
    ∧ anchorPointLo (d0 :: rest) =
        (rest.map FrameDoc.arcLengthLo).foldl Min.min d0.arcLengthLo
    ∧ (∀ d ∈ d0 :: rest, anchorPointLo (d0 :: rest) ≤ d.arcLengthLo)
    ∧ anchorPointHi (d0 :: rest) =
        (rest.map FrameDoc.arcLengthHi).foldl Max.max d0.arcLengthHi
    ∧ (∀ d ∈ d0 :: rest, d.arcLengthHi ≤ anchorPointHi (d0 :: rest)) := by
  have hmeanLo : (profilePassLoop (anchorPointLo (d0 :: rest))
      (anchorPointHi (d0 :: rest)) (d0 :: rest)
      (initProfileAgg n)).anchorEnergyLo.mean = anchorMeanLo (d0 :: rest) := by
    rw [profilePassLoop_anchorLo]
    rw [SummaryStatistics.foldl_update_mean _ _
      (by simp [initProfileAgg, SummaryStatistics.empty])]
    unfold anchorMeanLo
    simp [initProfileAgg, SummaryStatistics.empty]
  have hmeanHi : (profilePassLoop (anchorPointLo (d0 :: rest))
      (anchorPointHi (d0 :: rest)) (d0 :: rest)
      (initProfileAgg n)).anchorEnergyHi.mean = anchorMeanHi (d0 :: rest) := by
    rw [profilePassLoop_anchorHi]
    rw [SummaryStatistics.foldl_update_mean _ _
      (by simp [initProfileAgg, SummaryStatistics.empty])]
    unfold anchorMeanHi
    simp [initProfileAgg, SummaryStatistics.empty]
  have hanchorLoEq : anchorPointLo (d0 :: rest) =
      (rest.map FrameDoc.arcLengthLo).foldl Min.min d0.arcLengthLo := by
    unfold anchorPointLo scalarAggOfDocs
    rw [foldl_updateScalarAgg_arcLo]
    exact SummaryStatistics.foldl_update_min_empty d0.arcLengthLo
      (rest.map FrameDoc.arcLengthLo)
  have hanchorHiEq : anchorPointHi (d0 :: rest) =
      (rest.map FrameDoc.arcLengthHi).foldl Max.max d0.arcLengthHi := by
    unfold anchorPointHi scalarAggOfDocs
    rw [foldl_updateScalarAgg_arcHi]
    exact SummaryStatistics.foldl_update_max_empty d0.arcLengthHi
      (rest.map FrameDoc.arcLengthHi)
  refine ⟨?_, hmeanLo, hmeanHi, ?_, hanchorLoEq, ?_, hanchorHiEq, ?_⟩
  · show (energyProfilePass (anchorPointLo (d0 :: rest)) (anchorPointHi (d0 :: rest))
      (d0 :: rest) n).energySummary = _
    unfold energyShiftConst
    rw [← hmeanLo, ← hmeanHi]
    rfl
  · unfold energyShiftConst
    ring
  · intro d hd
    rw [hanchorLoEq]
    rcases List.mem_cons.mp hd with h1 | h1
    · subst h1
      exact foldl_min_le_init (rest.map FrameDoc.arcLengthLo) d.arcLengthLo
    · exact foldl_min_le_mem (rest.map FrameDoc.arcLengthLo) d0.arcLengthLo
        d.arcLengthLo (List.mem_map_of_mem FrameDoc.arcLengthLo h1)
  · intro d hd
    rw [hanchorHiEq]
    rcases List.mem_cons.mp hd with h1 | h1
    · subst h1
      exact foldl_max_init_le (rest.map FrameDoc.arcLengthHi) d.arcLengthHi
    · exact foldl_max_mem_le (rest.map FrameDoc.arcLengthHi) d0.arcLengthHi
        d.arcLengthHi (List.mem_map_of_mem FrameDoc.arcLengthHi h1)

/-- Witness for C7 on a single concrete frame: the mean of the two shifted
anchor energies is zero. -/
theorem energy_profile_shift_spec_witness :
    (anchorMeanLo [⟨0, 0, 0, 0, 0, 0, 0, 0, 0, 0, 0, 1, 3, 0, [5], fun q => q⟩] +
      energyShiftConst [⟨0, 0, 0, 0, 0, 0, 0, 0, 0, 0, 0, 1, 3, 0, [5], fun q => q⟩] +
      (anchorMeanHi [⟨0, 0, 0, 0, 0, 0, 0, 0, 0, 0, 0, 1, 3, 0, [5], fun q => q⟩] +
        energyShiftConst [⟨0, 0, 0, 0, 0, 0, 0, 0, 0, 0, 0, 1, 3, 0, [5], fun q => q⟩])) / 2 = 0 :=
  (energy_profile_shift_spec ⟨0, 0, 0, 0, 0, 0, 0, 0, 0, 0, 0, 1, 3, 0, [5], fun q => q⟩
    [] 1).2.2.2.1

/-- On all-readable input the first reading loop folds every line. -/
theorem readPassLoop_all_some (docs : List FrameDoc) :
    ∀ st : ScalarAggState, readPassLoop (docs.map some) st =
      Except.ok (docs.foldl updateScalarAgg st) := by
  induction docs with
  | nil => intro st; rfl
  | cons d docs ih =>
    intro st
    rw [List.map_cons, readPassLoop, ih (updateScalarAgg st d), List.foldl_cons]

/-- On input containing an unreadable line the first reading loop throws. -/
theorem readPassLoop_malformed (lines : List (Option FrameDoc)) :
    ∀ st : ScalarAggState, none ∈ lines →
      ∃ k, readPassLoop lines st = Except.error (AggError.malformedFrameRecord k) := by
  induction lines with
  | nil => intro st h; cases h
  | cons l rest ih =>
    intro st h
    rcases List.mem_cons.mp h with h1 | h1
    · subst h1
      exact ⟨st.linesRead, rfl⟩
    · cases l with
      | none => exact ⟨st.linesRead, rfl⟩
      | some d =>
        rw [readPassLoop]
        exact ih (updateScalarAgg st d) h1

/-- Claim C8 (amended): the aggregator throws on the first line that is not
a valid JSON object, aborting the pass with no aggregate output — it does
not skip the line and continue; when every line is readable, the pass folds
them all and then succeeds exactly when the number of lines equals the
number of frames analysed. -/
theorem aggregator_abort_behaviour (lines : List (Option FrameDoc))
    (numFrames : ℕ) :
    (none ∈ lines →
      ∃ k, readPass lines numFrames = Except.error (AggError.malformedFrameRecord k))
    ∧ (∀ docs : List FrameDoc, lines = docs.map some → lines.length = numFrames →
        readPass lines numFrames = Except.ok (scalarAggOfDocs docs))
    ∧ (∀ docs : List FrameDoc, lines = docs.map some → lines.length ≠ numFrames →
        readPass lines numFrames = Except.error AggError.frameCountMismatch) := by
  refine ⟨?_, ?_, ?_⟩
  · intro h
    obtain ⟨k, hk⟩ := readPassLoop_malformed lines initScalarAgg h
    refine ⟨k, ?_⟩
    rw [readPass, hk]
  · intro docs hdocs hlen
    subst hdocs
    rw [readPass, readPassLoop_all_some docs initScalarAgg]
    have hcount : (docs.foldl updateScalarAgg initScalarAgg).linesRead = numFrames := by
      rw [foldl_updateScalarAgg_linesRead docs initScalarAgg]
      show 0 + docs.length = numFrames
      rw [← List.length_map docs some]
      omega
    show (if (List.foldl updateScalarAgg initScalarAgg docs).linesRead = numFrames
      then Except.ok (List.foldl updateScalarAgg initScalarAgg docs)
      else Except.error AggError.frameCountMismatch) = Except.ok (scalarAggOfDocs docs)
    rw [if_pos hcount]
    rfl
  · intro docs hdocs hlen
    subst hdocs
    rw [readPass, readPassLoop_all_some docs initScalarAgg]
    have hcount : (docs.foldl updateScalarAgg initScalarAgg).linesRead ≠ numFrames := by
      rw [foldl_updateScalarAgg_linesRead docs initScalarAgg]
      show 0 + docs.length ≠ numFrames
      rw [← List.length_map docs some]
      omega
    show (if (List.foldl updateScalarAgg initScalarAgg docs).linesRead = numFrames
      then Except.ok (List.foldl updateScalarAgg initScalarAgg docs)
      else Except.error AggError.frameCountMismatch) =
        Except.error AggError.frameCountMismatch
    rw [if_neg hcount]

/-- Witness for the amended C8: a single readable line is folded into the
aggregate and the pass succeeds. -/
theorem aggregator_abort_behaviour_witness :
    readPass [some ⟨0, 0, 0, 0, 0, 0, 0, 0, 0, 0, 0, 0, 0, 0, [], fun _ => 0⟩] 1 =
      Except.ok (scalarAggOfDocs [⟨0, 0, 0, 0, 0, 0, 0, 0, 0, 0, 0, 0, 0, 0, [], fun _ => 0⟩]) :=
  (aggregator_abort_behaviour
    [some ⟨0, 0, 0, 0, 0, 0, 0, 0, 0, 0, 0, 0, 0, 0, [], fun _ => 0⟩] 1).2.1
    [⟨0, 0, 0, 0, 0, 0, 0, 0, 0, 0, 0, 0, 0, 0, [], fun _ => 0⟩] rfl rfl

/-- Counterexample to C8 as stated: on the input `[unreadable, readable]`
the code aborts at line `0` with no aggregate statistics at all, whereas the
claimed skip-and-count behaviour (formalised by `specSkipCountLoop`) would
process the readable line (count `1` in the minimum-radius summary) and
record one unreadable line. -/
theorem aggregator_skip_counterexample :
    readPass [none, some ⟨0, 0, 0, 0, 0, 0, 0, 0, 0, 0, 0, 0, 0, 0, [], fun _ => 0⟩] 2 =
      Except.error (AggError.malformedFrameRecord 0)
    ∧ (specSkipCountLoop
        [none, some ⟨0, 0, 0, 0, 0, 0, 0, 0, 0, 0, 0, 0, 0, 0, [], fun _ => 0⟩]
        initScalarAgg 0).1.minRadiusSummary.count = 1
    ∧ (specSkipCountLoop
        [none, some ⟨0, 0, 0, 0, 0, 0, 0, 0, 0, 0, 0, 0, 0, 0, [], fun _ => 0⟩]
        initScalarAgg 0).2 = 1 := by
  refine ⟨rfl, rfl, rfl⟩

/-! ## Theorems: Wavefront OBJ scaling (C9, C10) -/

namespace WavefrontObjObject

/-- The shift/scale/shift-back composition of `scale` collapses pointwise to
pure componentwise scaling. -/
theorem shift_scale_shift_cancel (fac cx cy cz : ℚ) (vs : List Vec3) :
    shift ⟨-cx * -fac, -cy * -fac, -cz * -fac⟩
      ((shift ⟨-cx, -cy, -cz⟩ vs).map (vecSmul fac)) = vs.map (vecSmul fac) := by
  unfold shift
  rw [List.map_map, List.map_map]
  refine congrArg (fun f => List.map f vs) ?_
  funext v
  simp only [Function.comp_apply, vecAdd, vecSmul, Vec3.mk.injEq]
  refine ⟨by ring, by ring, by ring⟩

/-- Summing scaled vertices scales the vertex sum. -/
theorem sumVertices_map_smul (fac : ℚ) (vs : List Vec3) :
    sumVertices (vs.map (vecSmul fac)) = vecSmul fac (sumVertices vs) := by
  have key : ∀ (ws : List Vec3) (a : Vec3),
      (ws.map (vecSmul fac)).foldl vecAdd (vecSmul fac a) =
        vecSmul fac (ws.foldl vecAdd a) := by
    intro ws
    induction ws with
    | nil => intro a; rfl
    | cons w ws ih =>
      intro a
      rw [List.map_cons, List.foldl_cons, List.foldl_cons]
      rw [show vecAdd (vecSmul fac a) (vecSmul fac w) = vecSmul fac (vecAdd a w) from by
        simp only [vecAdd, vecSmul, Vec3.mk.injEq]
        refine ⟨by ring, by ring, by ring⟩]
      exact ih (vecAdd a w)
  have h0 : (⟨0, 0, 0⟩ : Vec3) = vecSmul fac ⟨0, 0, 0⟩ := by
    simp only [vecSmul, Vec3.mk.injEq]
    refine ⟨by ring, by ring, by ring⟩
  unfold sumVertices
  conv_lhs => rw [h0]
  exact key vs ⟨0, 0, 0⟩

/-- Claim C9: on an object with at least one vertex, `scale(fac)` multiplies
every vertex componentwise by `fac`, and consequently the centre of geometry
is multiplied by `fac` as well (it is not preserved). -/
theorem scale_is_componentwise (fac : ℚ) (v0 : Vec3) (rest : List Vec3) :
    scale fac (v0 :: rest) = some ((v0 :: rest).map (vecSmul fac))
    ∧ calculateCog ((v0 :: rest).map (vecSmul fac)) =
        (calculateCog (v0 :: rest)).map (vecSmul fac) := by
  have hlen : (((v0 :: rest).length : ℕ) : ℚ) ≠ 0 := by
    rw [List.length_cons]
    push_cast
    positivity
  have hcog : calculateCog (v0 :: rest) =
      some ⟨(sumVertices (v0 :: rest)).x / ((v0 :: rest).length : ℚ),
        (sumVertices (v0 :: rest)).y / ((v0 :: rest).length : ℚ),
        (sumVertices (v0 :: rest)).z / ((v0 :: rest).length : ℚ)⟩ := by
    unfold calculateCog
    rw [if_neg hlen]
  constructor
  · unfold scale
    rw [hcog]
    exact congrArg some (shift_scale_shift_cancel fac _ _ _ (v0 :: rest))
  · have hlen2 : ((((v0 :: rest).map (vecSmul fac)).length : ℕ) : ℚ) ≠ 0 := by
      rw [List.length_map]
      exact hlen
    rw [hcog]
    unfold calculateCog
    rw [if_neg hlen2]
    rw [Option.map_some']
    rw [sumVertices_map_smul, List.length_map]
    refine congrArg some ?_
    simp only [vecSmul, Vec3.mk.injEq]
    refine ⟨by ring, by ring, by ring⟩

/-- Witness for C9: scaling the one-vertex object `[(1,2,3)]` by `2` yields
`[(2,4,6)]`. -/
theorem scale_is_componentwise_witness :
    scale 2 [(⟨1, 2, 3⟩ : Vec3)] = some [⟨2, 4, 6⟩] := by
  have h := (scale_is_componentwise 2 ⟨1, 2, 3⟩ []).1
  rw [h]
  simp only [List.map_cons, List.map_nil, vecSmul, Vec3.mk.injEq,
    Option.some.injEq, List.cons.injEq, and_true]
  norm_num

/-- Claim C10: `calculateCog` divides by the vertex count without an
emptiness guard; on an empty vertex list the division `0/0` is reached
(numerator: the empty vertex sum; denominator: the zero count), so neither
`calculateCog` nor `scale`, which calls it unconditionally, produces a
well-defined finite value there — while on every non-empty list the division
succeeds, so the error case is exactly the unguarded empty input. -/
theorem calculateCog_empty_unguarded :
    sumVertices [] = (⟨0, 0, 0⟩ : Vec3)
    ∧ ((([] : List Vec3).length : ℕ) : ℚ) = 0
    ∧ calculateCog [] = none
    ∧ (∀ fac : ℚ, scale fac [] = none)
    ∧ (∀ (v : Vec3) (vs : List Vec3), calculateCog (v :: vs) ≠ none) := by
  refine ⟨rfl, by norm_num, ?_, ?_, ?_⟩
  · unfold calculateCog
    rw [if_pos (by norm_num)]
  · intro fac
    unfold scale calculateCog
    rw [if_pos (by norm_num)]
  · intro v vs
    unfold calculateCog
    rw [if_neg (by rw [List.length_cons]; push_cast; positivity)]
    exact Option.some_ne_none _

/-- Witness for C10: scaling the empty object by `3` propagates the
undefined centre of geometry. -/
theorem calculateCog_empty_unguarded_witness :
    scale 3 [] = none :=
  calculateCog_empty_unguarded.2.2.2.1 3

end WavefrontObjObject

end Chap
